import Mathlib

/-!
Shallow embedding of the remote range-reader and proxy gateway of the
mediainfo repository.

The repository holds two variants of the reader (`src/app/services/mediainfo.ts`):
a "prefetch" variant that enlarges every fetch to at least `MIN_FETCH_SIZE`
bytes and slices the result (here `getSize_v1` / `readChunk_v1`), and a
"direct" variant that fetches exactly the requested window (here
`getSize_v2` / `readChunk_v2`).  The Cloudflare worker proxy
(`src/workers/app.ts`) is embedded as `proxyFetch`.

JavaScript `Headers` objects are case-insensitive maps; we model them as
association lists with case-insensitive lookup (`hget`), deletion (`hdel`)
and replacement (`hset`).
-/

instance {α β : Type} [DecidableEq α] [DecidableEq β] : DecidableEq (Except α β) :=
  fun x y =>
    match x, y with
    | .error a, .error b =>
      if h : a = b then isTrue (by rw [h]) else isFalse (by simp [h])
    | .error _, .ok _ => isFalse (by simp)
    | .ok _, .error _ => isFalse (by simp)
    | .ok a, .ok b =>
      if h : a = b then isTrue (by rw [h]) else isFalse (by simp [h])

namespace MediaCore

/-- ASCII lowercasing of a single character, as used by header-name
normalisation in the JS runtime. -/
def lowerChar (c : Char) : Char :=
  if 'A' ≤ c ∧ c ≤ 'Z' then Char.ofNat (c.toNat + 32) else c

/-- ASCII lowercasing of a string (header names). -/
def lowerStr (s : String) : String :=
  String.mk (s.data.map lowerChar)

/-- Case-insensitive lookup in a header list; `Headers.get` returning
`null` is modelled by `none`. -/
def hget : List (String × String) → String → Option String
  | [], _ => none
  | (k1, v) :: rest, k =>
    if lowerStr k1 = lowerStr k then some v else hget rest k

/-- Case-insensitive deletion of all entries of one header name
(`Headers.delete`). -/
def hdel : List (String × String) → String → List (String × String)
  | [], _ => []
  | (k1, v) :: rest, k =>
    if lowerStr k1 = lowerStr k then hdel rest k else (k1, v) :: hdel rest k

/-- `Headers.set`: the name holds exactly the given value afterwards. -/
def hset (hs : List (String × String)) (k v : String) : List (String × String) :=
  hdel hs k ++ [(k, v)]

/-- JavaScript truthiness applied to `headers.get(name)`: `null` and the
empty string are falsy.  Mirrors `if (contentRange)` / `if (contentLength)`
in `getSize`. -/
def hgetTruthy (hs : List (String × String)) (k : String) : Option String :=
  match hget hs k with
  | some s => if s = "" then none else some s
  | none => none

/-- An upstream HTTP response as observed by the reader: status, status
text, headers, and the body as a byte list. -/
structure HttpResponse where
  status : Nat
  statusText : String
  headers : List (String × String)
  body : List Nat
deriving DecidableEq

/-- `response.ok` of the fetch API: status in the range 200..299. -/
def respOk (r : HttpResponse) : Prop :=
  200 ≤ r.status ∧ r.status ≤ 299

instance (r : HttpResponse) : Decidable (respOk r) := by
  unfold respOk; infer_instance

/-- A JavaScript number restricted to what `parseInt` can produce here:
either `NaN` or an integer. -/
inductive JsNum where
  | nan : JsNum
  | num : Int → JsNum
deriving DecidableEq

/-- Decimal value of a digit list (the capture group is all digits). -/
def digitsVal (cs : List Char) : Nat :=
  cs.foldl (fun a c => a * 10 + (c.toNat - 48)) 0

/-- `parseInt(s, 10)`: skip whitespace, optional sign, maximal digit
run; `NaN` when no digits follow. -/
def parseIntJs (s : String) : JsNum :=
  let cs := s.data.dropWhile fun c => c = ' ' ∨ c = '\t' ∨ c = '\n' ∨ c = '\r'
  match cs with
  | '-' :: rest =>
    let ds := rest.takeWhile Char.isDigit
    if ds.isEmpty then .nan else .num (-(digitsVal ds : Int))
  | '+' :: rest =>
    let ds := rest.takeWhile Char.isDigit
    if ds.isEmpty then .nan else .num (digitsVal ds)
  | _ =>
    let ds := cs.takeWhile Char.isDigit
    if ds.isEmpty then .nan else .num (digitsVal ds)

/-- The regex `\/(\d+)$` applied to a `Content-Range` value: matches when
the string ends in a slash followed by at least one digit, and returns the
digit run (the capture group) as a string. -/
def contentRangeMatch (s : String) : Option String :=
  let cs := s.data
  let ds := (cs.reverse.takeWhile Char.isDigit).reverse
  if ds.isEmpty then none
  else if (cs.take (cs.length - ds.length)).getLast? = some '/' then
    some (String.mk ds)
  else none

/-- Fallback constant of the prefetch-variant size resolver: ten gibibytes. -/
def GiB10 : Nat := 1024 * 1024 * 1024 * 10

/-- Tail of `getSize` in the prefetch variant: a truthy `Content-Length`
is parsed; otherwise the 10 GiB fallback is returned, not an error. -/
def getSizeTail_v1 (resp : HttpResponse) : Except String JsNum :=
  match hgetTruthy resp.headers "Content-Length" with
  | some cl => .ok (parseIntJs cl)
  | none => .ok (.num (GiB10 : Int))

/-- Size resolution of the prefetch variant (`mediainfo.ts`, first copy):
require `response.ok`, prefer the `Content-Range` `.../TOTAL` trailer,
else `Content-Length`, else return the 10 GiB fallback. -/
def getSize_v1 (resp : HttpResponse) : Except String JsNum :=
  if respOk resp then
    match hgetTruthy resp.headers "Content-Range" with
    | some cr =>
      match contentRangeMatch cr with
      | some ds => .ok (parseIntJs ds)
      | none => getSizeTail_v1 resp
    | none => getSizeTail_v1 resp
  else .error ("Connection failed: " ++ toString resp.status)

/-- Tail of `getSize` in the direct variant: `Content-Length` only counts
together with status 200; otherwise the resolver throws. -/
def getSizeTail_v2 (resp : HttpResponse) : Except String JsNum :=
  match hgetTruthy resp.headers "Content-Length" with
  | some cl =>
    if resp.status = 200 then .ok (parseIntJs cl)
    else .error "Could not determine file size. Server must support Range requests."
  | none => .error "Could not determine file size. Server must support Range requests."

/-- Size resolution of the direct variant (`mediainfo.ts`, second copy):
require `response.ok`, prefer the `Content-Range` trailer, else a
status-200 `Content-Length`, else fail. -/
def getSize_v2 (resp : HttpResponse) : Except String JsNum :=
  if respOk resp then
    match hgetTruthy resp.headers "Content-Range" with
    | some cr =>
      match contentRangeMatch cr with
      | some ds => .ok (parseIntJs ds)
      | none => getSizeTail_v2 resp
    | none => getSizeTail_v2 resp
  else
    .error ("Connection failed: " ++ toString resp.status ++ " " ++ resp.statusText)

/-- Progress-bar target of the prefetch variant (2 MiB). -/
def ESTIMATED_METADATA_WORKLOAD : Nat := 2 * 1024 * 1024

/-- Minimum network fetch of the prefetch variant (256 KiB). -/
def MIN_FETCH_SIZE : Nat := 256 * 1024

/-- One network fetch issued by the reader, recorded as the inclusive
byte range placed in the `Range: bytes=start-end` header. -/
structure FetchReq where
  rangeStart : Nat
  rangeEnd : Nat
deriving DecidableEq

/-- Session-scoped mutable state of the reader: the
`totalBytesDownloaded` counter, the log of network fetches issued, and
the log of progress percentages reported through `onStatus`. -/
structure ReadState where
  totalBytesDownloaded : Nat
  fetchLog : List FetchReq
  percentLog : List ℚ
deriving DecidableEq

/-- The progress percentage computed in the prefetch variant:
`Math.min(99, (totalBytesDownloaded / ESTIMATED_METADATA_WORKLOAD) * 100)`. -/
def progressPercent (bytes : Nat) : ℚ :=
  min 99 ((bytes : ℚ) / (ESTIMATED_METADATA_WORKLOAD : ℚ) * 100)

/-- `readChunk` of the prefetch variant: bump the byte counter and report
progress, fetch `max(size, MIN_FETCH_SIZE)` bytes starting at `offset`,
reject non-ok statuses, reject a 200 full-body answer when `offset > 0`,
and slice the payload back down to at most `size` bytes.  The network is
a total function from fetch requests to responses. -/
def readChunk_v1 (origin : FetchReq → HttpResponse) (size offset : Nat)
    (st : ReadState) : Except String (List Nat) × ReadState :=
  let tb := st.totalBytesDownloaded + size
  let fetchSize := max size MIN_FETCH_SIZE
  let req : FetchReq := ⟨offset, offset + fetchSize - 1⟩
  let resp := origin req
  let st' : ReadState :=
    ⟨tb, st.fetchLog ++ [req], st.percentLog ++ [progressPercent tb]⟩
  let result : Except String (List Nat) :=
    if ¬ respOk resp then .error ("Read error: " ++ resp.statusText)
    else if resp.status = 200 ∧ offset > 0 then
      .error "Server returned full file (200) instead of partial (206). Aborting."
    else if resp.body.length > size then .ok (resp.body.take size)
    else .ok resp.body
  (result, st')

/-- `readChunk` of the direct variant: fetch exactly
`[offset, offset+size)`, reject non-ok statuses, reject a 200 full-body
answer when `offset > 0`, and return the payload unsliced.  This variant
reports megabytes read rather than a percentage, so `percentLog` is
untouched. -/
def readChunk_v2 (origin : FetchReq → HttpResponse) (size offset : Nat)
    (st : ReadState) : Except String (List Nat) × ReadState :=
  let tb := st.totalBytesDownloaded + size
  let req : FetchReq := ⟨offset, offset + size - 1⟩
  let resp := origin req
  let st' : ReadState := ⟨tb, st.fetchLog ++ [req], st.percentLog⟩
  let result : Except String (List Nat) :=
    if ¬ respOk resp then
      .error ("Read error: " ++ toString resp.status ++ " " ++ resp.statusText)
    else if resp.status = 200 ∧ offset > 0 then
      .error "Server returned full file (200) instead of partial (206). Aborting."
    else .ok resp.body
  (result, st')

/-- Sequential session driver over the prefetch-variant reader: the
analyzer issues one `(size, offset)` read at a time and a failed read
aborts the whole session, so nothing after the first error runs. -/
def runReads_v1 (origin : FetchReq → HttpResponse) :
    List (Nat × Nat) → ReadState → Except String Unit × ReadState
  | [], st => (.ok (), st)
  | (size, offset) :: rest, st =>
    match readChunk_v1 origin size offset st with
    | (.ok _, st1) => runReads_v1 origin rest st1
    | (.error e, st1) => (.error e, st1)

/-- Model of a range-compliant origin serving the byte list `file`: a
`Range: bytes=a-b` request with `a < file.length` yields a 206 partial
response holding bytes `a` through `min b (file.length - 1)`; an
out-of-range start yields 416. -/
def rangeOrigin (file : List Nat) : FetchReq → HttpResponse := fun r =>
  if r.rangeStart < file.length then
    { status := 206
      statusText := "Partial Content"
      headers := [("Content-Range",
        "bytes " ++ toString r.rangeStart ++ "-" ++ toString r.rangeEnd ++
          "/" ++ toString file.length)]
      body := (file.drop r.rangeStart).take (r.rangeEnd + 1 - r.rangeStart) }
  else
    { status := 416
      statusText := "Range Not Satisfiable"
      headers := [("Content-Range", "bytes */" ++ toString file.length)]
      body := [] }

/-- Model of an origin that ignores `Range` headers and always answers
200 with the whole file. -/
def fullBodyOrigin (file : List Nat) : FetchReq → HttpResponse := fun _ =>
  { status := 200, statusText := "OK", headers := [], body := file }

end MediaCore

namespace ProxyGateway

open MediaCore

/-- Result of `new URL(target)` when parsing succeeds: the fields the
worker reads from it. -/
structure ParsedUrl where
  hostname : String
  origin : String

/-- An inbound request to the worker's proxy route: its method, the
value of the `url` query parameter (`none` when absent), and its
headers. -/
structure ProxyRequest where
  method : String
  urlParam : Option String
  headers : List (String × String)

/-- One request the worker sends to the upstream origin. -/
structure UpstreamCall where
  url : String
  method : String
  headers : List (String × String)
deriving DecidableEq

/-- Body of a worker response: `Response(null, ...)`, a diagnostic text,
or the upstream byte stream piped through. -/
inductive RespBody where
  | empty : RespBody
  | text : String → RespBody
  | stream : List Nat → RespBody
deriving DecidableEq

/-- A response the worker returns to its client. -/
structure ClientResponse where
  status : Nat
  headers : List (String × String)
  body : RespBody

/-- Environment the worker runs against: the URL parser (`none` when
`new URL` throws, with `parseErrMsg` the thrown message) and the
upstream `fetch`, whose `Except.error` is a rejected promise. -/
structure ProxyEnv where
  parseUrl : String → Option ParsedUrl
  parseErrMsg : String → String
  upstream : UpstreamCall → Except String HttpResponse

/-- The fixed CORS header set of the worker. -/
def corsHeaders : List (String × String) :=
  [("Access-Control-Allow-Origin", "*"),
   ("Access-Control-Allow-Methods", "GET, HEAD, OPTIONS"),
   ("Access-Control-Allow-Headers", "Range, Content-Type, User-Agent"),
   ("Access-Control-Expose-Headers",
    "Content-Length, Content-Range, Content-Type, Accept-Ranges, Content-Disposition")]

/-- The worker's response-header blocklist (`skipHeaders`), lowercase. -/
def skipHeaders : List String :=
  ["content-encoding", "content-length", "transfer-encoding", "connection",
   "keep-alive", "content-disposition", "content-type"]

/-- Headers sent upstream: copy of the inbound headers with `Host` and
`Referer` pointed at the upstream origin and `Origin`/`Cookie` removed. -/
def upstreamHeaders (hs : List (String × String)) (u : ParsedUrl) :
    List (String × String) :=
  hdel (hdel (hset (hset hs "Host" u.hostname) "Referer" u.origin) "Origin") "Cookie"

/-- The copy loop over `upstreamResponse.headers.entries()`: every header
whose lowercased name is not blocklisted is `set` on the accumulating
client headers. -/
def copyHeaders : List (String × String) → List (String × String) →
    List (String × String)
  | acc, [] => acc
  | acc, (k, v) :: rest =>
    copyHeaders (if lowerStr k ∈ skipHeaders then acc else hset acc k v) rest

/-- Apply the CORS header set on top of the accumulated client headers. -/
def applyCors (hs : List (String × String)) : List (String × String) :=
  corsHeaders.foldl (fun acc kv => hset acc kv.1 kv.2) hs

/-- The client response headers built from an upstream response:
blocklist-filtered copy, delete `content-disposition`, force
`content-type: application/octet-stream`, restore `Content-Length` and
`Content-Range` from upstream when present, then apply CORS. -/
def respondHeaders (ur : HttpResponse) : List (String × String) :=
  let copied := copyHeaders [] ur.headers
  let h1 := hdel copied "content-disposition"
  let h2 := hset h1 "content-type" "application/octet-stream"
  let h3 := match hget ur.headers "Content-Length" with
            | some v => hset h2 "Content-Length" v
            | none => h2
  let h4 := match hget ur.headers "Content-Range" with
            | some v => hset h3 "Content-Range" v
            | none => h3
  applyCors h4

/-- The `/resources/proxy` branch of the worker's `fetch` handler.
Returns the client response together with the list of upstream requests
issued (empty or a single call). -/
def proxyFetch (env : ProxyEnv) (req : ProxyRequest) :
    ClientResponse × List UpstreamCall :=
  if req.method = "OPTIONS" then
    (⟨200, corsHeaders, .empty⟩, [])
  else
    match req.urlParam with
    | none => (⟨400, corsHeaders, .text "Missing 'url' query parameter"⟩, [])
    | some targetUrl =>
      if targetUrl = "" then
        (⟨400, corsHeaders, .text "Missing 'url' query parameter"⟩, [])
      else
        match env.parseUrl targetUrl with
        | none =>
          (⟨502, corsHeaders, .text ("Proxy error: " ++ env.parseErrMsg targetUrl)⟩, [])
        | some u =>
          let call : UpstreamCall :=
            ⟨targetUrl, req.method, upstreamHeaders req.headers u⟩
          match env.upstream call with
          | .error e =>
            (⟨502, corsHeaders, .text ("Proxy error: " ++ e)⟩, [call])
          | .ok ur =>
            (⟨ur.status, respondHeaders ur, .stream ur.body⟩, [call])

end ProxyGateway

namespace MediaCore

/-! Helper lemmas about the case-insensitive header operations. -/

theorem hget_append (a b : List (String × String)) (k : String) :
    hget (a ++ b) k =
      match hget a k with
      | some v => some v
      | none => hget b k := by
  induction a with
  | nil => simp [hget]
  | cons p rest ih =>
    obtain ⟨k1, v⟩ := p
    by_cases h : lowerStr k1 = lowerStr k <;> simp [hget, h, ih]

theorem hget_hdel (hs : List (String × String)) (k k' : String) :
    hget (hdel hs k) k' =
      if lowerStr k' = lowerStr k then none else hget hs k' := by
  induction hs with
  | nil => simp [hdel, hget]
  | cons p rest ih =>
    obtain ⟨k1, v⟩ := p
    by_cases h1 : lowerStr k1 = lowerStr k
    · by_cases h2 : lowerStr k' = lowerStr k
      · simp [hdel, hget, h1, h2, ih]
      · have h3 : lowerStr k1 ≠ lowerStr k' := by
          rw [h1]; exact fun hh => h2 hh.symm
        have h4 : lowerStr k ≠ lowerStr k' := fun hh => h2 hh.symm
        simp [hdel, hget, h1, h2, h3, h4, ih]
    · by_cases h2 : lowerStr k' = lowerStr k
      · have h3 : lowerStr k1 ≠ lowerStr k' := by
          rw [h2]; exact h1
        simp [hdel, hget, h1, h2, h3, ih]
      · by_cases h3 : lowerStr k1 = lowerStr k'
        · simp [hdel, hget, h1, h2, h3, ih]
        · simp [hdel, hget, h1, h2, h3, ih]

theorem hget_hset (hs : List (String × String)) (k v k' : String) :
    hget (hset hs k v) k' =
      if lowerStr k' = lowerStr k then some v else hget hs k' := by
  unfold hset
  rw [hget_append, hget_hdel]
  by_cases h : lowerStr k' = lowerStr k
  · rw [if_pos h, if_pos h]
    show hget [(k, v)] k' = some v
    rw [hget, if_pos h.symm]
  · rw [if_neg h, if_neg h]
    have h2 : lowerStr k ≠ lowerStr k' := fun hh => h hh.symm
    cases hv : hget hs k' <;> simp [hv, hget, h2]

theorem hget_eq_none (hs : List (String × String)) (k : String)
    (h : lowerStr k ∉ hs.map fun p => lowerStr p.1) : hget hs k = none := by
  induction hs with
  | nil => rfl
  | cons p rest ih =>
    obtain ⟨k1, v⟩ := p
    simp only [List.map_cons, List.mem_cons] at h
    push_neg at h
    have h1 : lowerStr k1 ≠ lowerStr k := fun hh => h.1 hh.symm
    simp [hget, h1, ih h.2]

theorem hget_cons_none (k1 v : String) (rest : List (String × String)) (k : String)
    (h : hget ((k1, v) :: rest) k = none) :
    lowerStr k1 ≠ lowerStr k ∧ hget rest k = none := by
  by_cases h1 : lowerStr k1 = lowerStr k
  · simp [hget, h1] at h
  · simp [hget, h1] at h
    exact ⟨h1, h⟩

end MediaCore

namespace ProxyGateway

open MediaCore

/-- A blocklisted lookup is unaffected by the copy loop: every header the
loop sets has a non-blocklisted name. -/
theorem hget_copyHeaders_skip (hs : List (String × String))
    (acc : List (String × String)) (k : String) (h : lowerStr k ∈ skipHeaders) :
    hget (copyHeaders acc hs) k = hget acc k := by
  induction hs generalizing acc with
  | nil => rfl
  | cons p rest ih =>
    obtain ⟨k1, v⟩ := p
    simp only [copyHeaders]
    rw [ih]
    by_cases h1 : lowerStr k1 ∈ skipHeaders
    · rw [if_pos h1]
    · rw [if_neg h1, hget_hset,
        if_neg fun (hh : lowerStr k = lowerStr k1) => h1 (hh ▸ h)]

/-- A non-blocklisted lookup after the copy loop sees the upstream value
when there is one, else whatever the accumulator held.  Needs upstream
header names to be distinct, as the `Headers` class guarantees. -/
theorem hget_copyHeaders_pass (hs : List (String × String))
    (acc : List (String × String)) (k : String)
    (h : lowerStr k ∉ skipHeaders)
    (hnd : (hs.map fun p => lowerStr p.1).Nodup) :
    hget (copyHeaders acc hs) k =
      match hget hs k with
      | some v => some v
      | none => hget acc k := by
  induction hs generalizing acc with
  | nil => simp [copyHeaders, hget]
  | cons p rest ih =>
    obtain ⟨k1, v⟩ := p
    simp only [List.map_cons, List.nodup_cons] at hnd
    obtain ⟨hk1, hndr⟩ := hnd
    simp only [copyHeaders, hget]
    by_cases h1 : lowerStr k1 = lowerStr k
    · have hskip1 : lowerStr k1 ∉ skipHeaders := fun hh => h (h1 ▸ hh)
      rw [if_neg hskip1, if_pos h1, ih _ hndr]
      have hrest : hget rest k = none :=
        hget_eq_none rest k (h1 ▸ hk1)
      rw [hrest, hget_hset, if_pos h1.symm]
    · rw [if_neg h1, ih _ hndr]
      by_cases h2 : lowerStr k1 ∈ skipHeaders
      · rw [if_pos h2]
      · rw [if_neg h2]
        cases hr : hget rest k with
        | some w => rfl
        | none =>
          simp only
          rw [hget_hset, if_neg fun hh => h1 hh.symm]

/-- When the upstream holds no header of this name, the copy loop never
touches it. -/
theorem hget_copyHeaders_of_none (hs : List (String × String))
    (acc : List (String × String)) (k : String) (h : hget hs k = none) :
    hget (copyHeaders acc hs) k = hget acc k := by
  induction hs generalizing acc with
  | nil => rfl
  | cons p rest ih =>
    obtain ⟨k1, v⟩ := p
    obtain ⟨h1, h2⟩ := hget_cons_none k1 v rest k h
    simp only [copyHeaders]
    rw [ih _ h2]
    by_cases h3 : lowerStr k1 ∈ skipHeaders
    · rw [if_pos h3]
    · rw [if_neg h3, hget_hset, if_neg fun hh => h1 hh.symm]

/-- Applying the CORS set leaves every non-CORS header name unchanged. -/
theorem hget_applyCors (hs : List (String × String)) (k : String)
    (h : lowerStr k ∉ corsHeaders.map fun p => lowerStr p.1) :
    hget (applyCors hs) k = hget hs k := by
  simp only [corsHeaders, List.map_cons, List.map_nil, List.mem_cons,
    List.not_mem_nil, or_false, not_or] at h
  obtain ⟨h1, h2, h3, h4⟩ := h
  simp only [applyCors, corsHeaders, List.foldl]
  rw [hget_hset, if_neg h4, hget_hset, if_neg h3, hget_hset, if_neg h2,
    hget_hset, if_neg h1]

/-- For names other than the ones the worker manages explicitly, the
client headers show exactly what the copy loop produced. -/
theorem hget_respondHeaders_passthrough (ur : HttpResponse) (k : String)
    (hcors : lowerStr k ∉ corsHeaders.map fun p => lowerStr p.1)
    (hct : ¬ lowerStr k = lowerStr "content-type")
    (hcl : ¬ lowerStr k = lowerStr "Content-Length")
    (hcr : ¬ lowerStr k = lowerStr "Content-Range")
    (hcd : ¬ lowerStr k = lowerStr "content-disposition") :
    hget (respondHeaders ur) k = hget (copyHeaders [] ur.headers) k := by
  unfold respondHeaders
  rw [hget_applyCors _ _ hcors]
  cases h4 : hget ur.headers "Content-Range" with
  | some v =>
    rw [hget_hset, if_neg hcr]
    cases h3 : hget ur.headers "Content-Length" with
    | some w =>
      rw [hget_hset, if_neg hcl, hget_hset, if_neg hct, hget_hdel, if_neg hcd]
    | none => rw [hget_hset, if_neg hct, hget_hdel, if_neg hcd]
  | none =>
    cases h3 : hget ur.headers "Content-Length" with
    | some w =>
      rw [hget_hset, if_neg hcl, hget_hset, if_neg hct, hget_hdel, if_neg hcd]
    | none => rw [hget_hset, if_neg hct, hget_hdel, if_neg hcd]

/-- The client response always carries the forced neutral content type. -/
theorem respondHeaders_contentType (ur : HttpResponse) :
    hget (respondHeaders ur) "Content-Type" = some "application/octet-stream" := by
  unfold respondHeaders
  rw [hget_applyCors _ _ (by decide)]
  cases h4 : hget ur.headers "Content-Range" with
  | some v =>
    rw [hget_hset, if_neg (by decide)]
    cases h3 : hget ur.headers "Content-Length" with
    | some w => rw [hget_hset, if_neg (by decide), hget_hset, if_pos (by decide)]
    | none => rw [hget_hset, if_pos (by decide)]
  | none =>
    cases h3 : hget ur.headers "Content-Length" with
    | some w => rw [hget_hset, if_neg (by decide), hget_hset, if_pos (by decide)]
    | none => rw [hget_hset, if_pos (by decide)]

/-- The client response never carries `Content-Disposition`. -/
theorem respondHeaders_contentDisposition (ur : HttpResponse) :
    hget (respondHeaders ur) "Content-Disposition" = none := by
  unfold respondHeaders
  rw [hget_applyCors _ _ (by decide)]
  cases h4 : hget ur.headers "Content-Range" with
  | some v =>
    rw [hget_hset, if_neg (by decide)]
    cases h3 : hget ur.headers "Content-Length" with
    | some w =>
      rw [hget_hset, if_neg (by decide), hget_hset, if_neg (by decide),
        hget_hdel, if_pos (by decide)]
    | none =>
      rw [hget_hset, if_neg (by decide), hget_hdel, if_pos (by decide)]
  | none =>
    cases h3 : hget ur.headers "Content-Length" with
    | some w =>
      rw [hget_hset, if_neg (by decide), hget_hset, if_neg (by decide),
        hget_hdel, if_pos (by decide)]
    | none =>
      rw [hget_hset, if_neg (by decide), hget_hdel, if_pos (by decide)]

/-- `Content-Length` is restored from the upstream response exactly. -/
theorem respondHeaders_contentLength (ur : HttpResponse) :
    hget (respondHeaders ur) "Content-Length" = hget ur.headers "Content-Length" := by
  unfold respondHeaders
  rw [hget_applyCors _ _ (by decide)]
  cases h4 : hget ur.headers "Content-Range" with
  | some v =>
    rw [hget_hset, if_neg (by decide)]
    cases h3 : hget ur.headers "Content-Length" with
    | some w => rw [hget_hset, if_pos (by decide)]
    | none =>
      rw [hget_hset, if_neg (by decide), hget_hdel, if_neg (by decide),
        hget_copyHeaders_skip _ _ _ (by decide)]
      rfl
  | none =>
    cases h3 : hget ur.headers "Content-Length" with
    | some w => rw [hget_hset, if_pos (by decide)]
    | none =>
      rw [hget_hset, if_neg (by decide), hget_hdel, if_neg (by decide),
        hget_copyHeaders_skip _ _ _ (by decide)]
      rfl

/-- `Content-Range` is restored from the upstream response exactly. -/
theorem respondHeaders_contentRange (ur : HttpResponse) :
    hget (respondHeaders ur) "Content-Range" = hget ur.headers "Content-Range" := by
  unfold respondHeaders
  rw [hget_applyCors _ _ (by decide)]
  cases h4 : hget ur.headers "Content-Range" with
  | some v => rw [hget_hset, if_pos (by decide)]
  | none =>
    cases h3 : hget ur.headers "Content-Length" with
    | some w =>
      rw [hget_hset, if_neg (by decide), hget_hset, if_neg (by decide),
        hget_hdel, if_neg (by decide), hget_copyHeaders_of_none _ _ _ h4]
      rfl
    | none =>
      rw [hget_hset, if_neg (by decide), hget_hdel, if_neg (by decide),
        hget_copyHeaders_of_none _ _ _ h4]
      rfl

/-- Every blocklisted name other than the explicitly managed ones is
absent from the client response. -/
theorem respondHeaders_dropped (ur : HttpResponse) (k : String)
    (hskip : lowerStr k ∈ skipHeaders)
    (hcors : lowerStr k ∉ corsHeaders.map fun p => lowerStr p.1)
    (hct : ¬ lowerStr k = lowerStr "content-type")
    (hcl : ¬ lowerStr k = lowerStr "Content-Length")
    (hcr : ¬ lowerStr k = lowerStr "Content-Range")
    (hcd : ¬ lowerStr k = lowerStr "content-disposition") :
    hget (respondHeaders ur) k = none := by
  rw [hget_respondHeaders_passthrough ur k hcors hct hcl hcr hcd,
    hget_copyHeaders_skip _ _ _ hskip]
  rfl

/-- The `Cookie` header never reaches the upstream request. -/
theorem upstreamHeaders_cookie (hs : List (String × String)) (u : ParsedUrl) :
    hget (upstreamHeaders hs u) "Cookie" = none := by
  unfold upstreamHeaders
  rw [hget_hdel, if_pos (by decide)]

/-- The `Origin` header never reaches the upstream request. -/
theorem upstreamHeaders_origin (hs : List (String × String)) (u : ParsedUrl) :
    hget (upstreamHeaders hs u) "Origin" = none := by
  unfold upstreamHeaders
  rw [hget_hdel, if_neg (by decide), hget_hdel, if_pos (by decide)]

/-- Exhaustive description of the worker paths: either no upstream call
is made and the client response carries exactly the CORS headers, or one
upstream call with sanitized headers is made and the client response
carries either the CORS headers (rejected upstream fetch) or the
sanitized upstream headers. -/
theorem proxyFetch_cases (env : ProxyEnv) (req : ProxyRequest) :
    ((proxyFetch env req).2 = [] ∧ (proxyFetch env req).1.headers = corsHeaders) ∨
    (∃ t u,
      req.urlParam = some t ∧ env.parseUrl t = some u ∧
      (proxyFetch env req).2 = [⟨t, req.method, upstreamHeaders req.headers u⟩] ∧
      ((proxyFetch env req).1.headers = corsHeaders ∨
        ∃ ur, env.upstream ⟨t, req.method, upstreamHeaders req.headers u⟩ = .ok ur ∧
          (proxyFetch env req).1.headers = respondHeaders ur)) := by
  by_cases hm : req.method = "OPTIONS"
  · left; simp [proxyFetch, hm]
  · cases hu : req.urlParam with
    | none => left; simp [proxyFetch, hm, hu]
    | some t =>
      by_cases ht : t = ""
      · left; simp [proxyFetch, hm, hu, ht]
      · cases hp : env.parseUrl t with
        | none => left; simp [proxyFetch, hm, hu, ht, hp]
        | some u =>
          right
          refine ⟨t, u, rfl, hp, ?_⟩
          cases hup : env.upstream ⟨t, req.method, upstreamHeaders req.headers u⟩ with
          | error e =>
            refine ⟨?_, .inl ?_⟩ <;> simp [proxyFetch, hm, hu, ht, hp, hup]
          | ok ur =>
            refine ⟨?_, .inr ⟨ur, rfl, ?_⟩⟩ <;>
              simp [proxyFetch, hm, hu, ht, hp, hup]

end ProxyGateway

namespace MediaCore

/-- C3 counterexample: on a 200 probe response with neither a
`Content-Range` trailer nor a `Content-Length` header, the
prefetch-variant size resolver does not fail; it returns the 10 GiB
fallback constant (the source comments: return a safe large number). -/
theorem getSize_v1_fallback_counterexample :
    getSize_v1 ⟨200, "OK", [], []⟩ = .ok (.num 10737418240) := by decide

/-- C3 (amended): on an ok probe response in which neither a
`Content-Range` total trailer nor a truthy `Content-Length` header is
present, the direct-variant resolver fails with the size-unknown error,
while the prefetch-variant resolver instead returns the 10 GiB fallback
value. -/
theorem getSize_missing_headers_behavior (resp : HttpResponse)
    (hok : respOk resp)
    (hcr : ∀ s, hgetTruthy resp.headers "Content-Range" = some s →
      contentRangeMatch s = none)
    (hcl : hgetTruthy resp.headers "Content-Length" = none) :
    getSize_v2 resp =
      .error "Could not determine file size. Server must support Range requests." ∧
    getSize_v1 resp = .ok (.num 10737418240) := by
  constructor
  · unfold getSize_v2
    rw [if_pos hok]
    cases h : hgetTruthy resp.headers "Content-Range" with
    | some s =>
      dsimp only
      rw [hcr s h]
      unfold getSizeTail_v2
      rw [hcl]
    | none =>
      unfold getSizeTail_v2
      rw [hcl]
  · unfold getSize_v1
    rw [if_pos hok]
    cases h : hgetTruthy resp.headers "Content-Range" with
    | some s =>
      dsimp only
      rw [hcr s h]
      unfold getSizeTail_v1
      rw [hcl]
      decide
    | none =>
      unfold getSizeTail_v1
      rw [hcl]
      decide

/-- Witness for the amended C3 theorem at a concrete bare 200 response. -/
theorem getSize_missing_headers_behavior_witness :
    getSize_v2 ⟨200, "OK", [], []⟩ =
      .error "Could not determine file size. Server must support Range requests." ∧
    getSize_v1 ⟨200, "OK", [], []⟩ = .ok (.num 10737418240) :=
  getSize_missing_headers_behavior ⟨200, "OK", [], []⟩ (by decide)
    (fun s hs => by simp [hgetTruthy, hget] at hs) (by decide)

/-- C7 counterexample: a 416 probe response carrying the trailer
`bytes */1000` makes both size resolvers fail with the connection error,
rather than returning 1000: the `response.ok` guard runs before the
trailer is inspected, so the trailer is not authoritative for non-2xx
statuses. -/
theorem getSize_trailer_status_counterexample :
    getSize_v1 ⟨416, "Range Not Satisfiable",
        [("Content-Range", "bytes */1000")], []⟩ =
      .error "Connection failed: 416" ∧
    getSize_v2 ⟨416, "Range Not Satisfiable",
        [("Content-Range", "bytes */1000")], []⟩ =
      .error "Connection failed: 416 Range Not Satisfiable" := by
  constructor <;> decide

/-- C7 (amended): on every ok (2xx) probe response whose `Content-Range`
value matches the `.../TOTAL` trailer regex, both size resolvers return
the parsed trailer, regardless of which ok status (200 or 206) the
response carries. -/
theorem getSize_trailer_ok_status (resp : HttpResponse) (s ds : String)
    (hok : respOk resp)
    (hcr : hgetTruthy resp.headers "Content-Range" = some s)
    (hm : contentRangeMatch s = some ds) :
    getSize_v1 resp = .ok (parseIntJs ds) ∧
    getSize_v2 resp = .ok (parseIntJs ds) := by
  constructor
  · unfold getSize_v1
    rw [if_pos hok, hcr]
    dsimp only
    rw [hm]
  · unfold getSize_v2
    rw [if_pos hok, hcr]
    dsimp only
    rw [hm]

/-- Witness for the amended C7 theorem: a trailer of 1000 on a plain 200
response resolves to 1000. -/
theorem getSize_trailer_ok_status_witness :
    getSize_v1 ⟨200, "OK", [("Content-Range", "bytes 0-0/1000")], [7]⟩ =
      .ok (parseIntJs "1000") ∧
    getSize_v2 ⟨200, "OK", [("Content-Range", "bytes 0-0/1000")], [7]⟩ =
      .ok (parseIntJs "1000") :=
  getSize_trailer_ok_status ⟨200, "OK", [("Content-Range", "bytes 0-0/1000")], [7]⟩
    "bytes 0-0/1000" "1000" (by decide) (by decide) (by decide)

end MediaCore

namespace MediaCore

/-- Each reader call returns its updated state as the second component:
the state update is computed before any response check. -/
theorem readChunk_v1_state (origin : FetchReq → HttpResponse)
    (size offset : Nat) (st : ReadState) :
    (readChunk_v1 origin size offset st).2 =
      ⟨st.totalBytesDownloaded + size,
       st.fetchLog ++ [⟨offset, offset + max size MIN_FETCH_SIZE - 1⟩],
       st.percentLog ++ [progressPercent (st.totalBytesDownloaded + size)]⟩ := rfl

/-- C9: across readChunk calls of the prefetch variant, the
downloaded-bytes counter grows by exactly the requested size and never
decreases (also across whole sequential sessions), and the percentage
reported on each in-flight call is
min(99, bytesSoFar / ESTIMATED_METADATA_WORKLOAD * 100), which never
reaches 100. -/
theorem progress_counter_monotone :
    (∀ (origin : FetchReq → HttpResponse) (size offset : Nat) (st : ReadState),
      (readChunk_v1 origin size offset st).2.totalBytesDownloaded =
        st.totalBytesDownloaded + size ∧
      st.totalBytesDownloaded ≤
        (readChunk_v1 origin size offset st).2.totalBytesDownloaded ∧
      (readChunk_v1 origin size offset st).2.percentLog =
        st.percentLog ++ [progressPercent (st.totalBytesDownloaded + size)] ∧
      progressPercent (st.totalBytesDownloaded + size) ≤ 99) ∧
    (∀ bytes : Nat,
      progressPercent bytes =
        min 99 ((bytes : ℚ) / (ESTIMATED_METADATA_WORKLOAD : ℚ) * 100)) ∧
    (∀ (origin : FetchReq → HttpResponse) (calls : List (Nat × Nat)) (st : ReadState),
      st.totalBytesDownloaded ≤
        (runReads_v1 origin calls st).2.totalBytesDownloaded) := by
  refine ⟨?_, fun bytes => rfl, ?_⟩
  · intro origin size offset st
    exact ⟨rfl, Nat.le_add_right _ _, rfl, min_le_left _ _⟩
  · intro origin calls
    induction calls with
    | nil => intro st; exact le_refl _
    | cons c rest ih =>
      intro st
      obtain ⟨size, offset⟩ := c
      simp only [runReads_v1]
      rcases h : readChunk_v1 origin size offset st with ⟨r, st1⟩
      have h2 := congrArg Prod.snd h
      simp only at h2
      rw [readChunk_v1_state] at h2
      have hst1 : st.totalBytesDownloaded ≤ st1.totalBytesDownloaded := by
        rw [← h2]; exact Nat.le_add_right _ _
      cases r with
      | ok b => exact le_trans hst1 (ih st1)
      | error e => exact hst1

/-- C2: if the origin answers a fetch at a non-zero offset with a 200
full-body status, both reader variants abort with the non-range-server
error instead of returning the payload, and the sequential session
driver issues no further network request after any failed read. -/
theorem readChunk_nonRange_aborts :
    (∀ (origin : FetchReq → HttpResponse) (size offset : Nat) (st : ReadState),
      0 < offset →
      (origin ⟨offset, offset + max size MIN_FETCH_SIZE - 1⟩).status = 200 →
      (readChunk_v1 origin size offset st).1 =
        .error "Server returned full file (200) instead of partial (206). Aborting.") ∧
    (∀ (origin : FetchReq → HttpResponse) (size offset : Nat) (st : ReadState),
      0 < offset →
      (origin ⟨offset, offset + size - 1⟩).status = 200 →
      (readChunk_v2 origin size offset st).1 =
        .error "Server returned full file (200) instead of partial (206). Aborting.") ∧
    (∀ (origin : FetchReq → HttpResponse) (size offset : Nat)
       (rest : List (Nat × Nat)) (st : ReadState) (e : String),
      (readChunk_v1 origin size offset st).1 = .error e →
      (runReads_v1 origin ((size, offset) :: rest) st).1 = .error e ∧
      (runReads_v1 origin ((size, offset) :: rest) st).2.fetchLog =
        (readChunk_v1 origin size offset st).2.fetchLog) := by
  refine ⟨?_, ?_, ?_⟩
  · intro origin size offset st hoff hst
    have hok : respOk (origin ⟨offset, offset + max size MIN_FETCH_SIZE - 1⟩) := by
      unfold respOk; omega
    simp only [readChunk_v1]
    rw [if_neg (not_not_intro hok), if_pos ⟨hst, hoff⟩]
  · intro origin size offset st hoff hst
    have hok : respOk (origin ⟨offset, offset + size - 1⟩) := by
      unfold respOk; omega
    simp only [readChunk_v2]
    rw [if_neg (not_not_intro hok), if_pos ⟨hst, hoff⟩]
  · intro origin size offset rest st e h
    simp only [runReads_v1]
    rcases hrc : readChunk_v1 origin size offset st with ⟨r, st1⟩
    rw [hrc] at h
    simp only at h
    subst h
    exact ⟨rfl, rfl⟩

/-- Witness for C2: a full-body origin at offset 5 makes the prefetch
reader abort with the non-range-server error. -/
theorem readChunk_nonRange_aborts_witness :
    (readChunk_v1 (fullBodyOrigin (List.range 9)) 4 5 ⟨0, [], []⟩).1 =
      .error "Server returned full file (200) instead of partial (206). Aborting." :=
  readChunk_nonRange_aborts.1 (fullBodyOrigin (List.range 9)) 4 5 ⟨0, [], []⟩
    (by decide) (by decide)

end MediaCore

namespace MediaCore

/-- C4 counterexample: the reader keeps no cache.  Two sequential
readChunk calls whose windows [0,10) and [20,25) both lie inside the
window fetched by the first call (the reader requested bytes 0..262143
and received the whole 40-byte file) still issue two network fetches,
not one, and both calls succeed. -/
theorem readChunk_no_cache_counterexample :
    (runReads_v1 (rangeOrigin (List.range 40)) [(10, 0), (5, 20)]
        ⟨0, [], []⟩).2.fetchLog.length = 2 ∧
    (runReads_v1 (rangeOrigin (List.range 40)) [(10, 0), (5, 20)]
        ⟨0, [], []⟩).1 = .ok () ∧
    (runReads_v1 (rangeOrigin (List.range 40)) [(10, 0), (5, 20)]
        ⟨0, [], []⟩).2.fetchLog = [⟨0, 262143⟩, ⟨20, 262163⟩] ∧
    20 + 5 ≤ 40 ∧ 40 ≤ 262144 := by
  refine ⟨?_, ?_, ?_, by decide, by decide⟩ <;> decide

/-- C4 (amended): the prefetch variant enlarges each fetch but does not
cache it: every readChunk call appends exactly one fetch to the log, so
two sequential calls — wherever their windows lie — perform two fetches
in total when the first call succeeds. -/
theorem readChunk_every_call_fetches :
    (∀ (origin : FetchReq → HttpResponse) (size offset : Nat) (st : ReadState),
      (readChunk_v1 origin size offset st).2.fetchLog =
        st.fetchLog ++ [⟨offset, offset + max size MIN_FETCH_SIZE - 1⟩]) ∧
    (∀ (origin : FetchReq → HttpResponse) (s1 o1 s2 o2 : Nat) (st : ReadState)
       (b : List Nat),
      (readChunk_v1 origin s1 o1 st).1 = .ok b →
      (runReads_v1 origin [(s1, o1), (s2, o2)] st).2.fetchLog.length =
        st.fetchLog.length + 2) := by
  constructor
  · intro origin size offset st
    rfl
  · intro origin s1 o1 s2 o2 st b h
    simp only [runReads_v1]
    rcases h1 : readChunk_v1 origin s1 o1 st with ⟨r1, st1⟩
    rw [h1] at h
    simp only at h
    subst h
    have h2 := congrArg Prod.snd h1
    simp only at h2
    rw [readChunk_v1_state] at h2
    have hlog1 : st1.fetchLog.length = st.fetchLog.length + 1 := by
      rw [← h2]; simp
    rcases h3 : readChunk_v1 origin s2 o2 st1 with ⟨r2, st2⟩
    have h4 := congrArg Prod.snd h3
    simp only at h4
    rw [readChunk_v1_state] at h4
    have hlog2 : st2.fetchLog.length = st1.fetchLog.length + 1 := by
      rw [← h4]; simp
    cases r2 <;> simp only [runReads_v1, h3] <;> omega

/-- Witness for the amended C4 theorem at the counterexample inputs. -/
theorem readChunk_every_call_fetches_witness :
    (runReads_v1 (rangeOrigin (List.range 40)) [(10, 0), (5, 20)]
        ⟨0, [], []⟩).2.fetchLog.length =
      (⟨0, [], []⟩ : ReadState).fetchLog.length + 2 :=
  readChunk_every_call_fetches.2 (rangeOrigin (List.range 40)) 10 0 5 20
    ⟨0, [], []⟩ (List.range 10) (by decide)

/-- C8 counterexample: on a resolved total of 5 bytes, the cache-miss
fetch for readChunk(3, 2) requests the byte window 2..262145, which
extends far past the file end (index 4): the requested window is not
clipped at the resolved total, and the origin truncates the payload
instead. -/
theorem readChunk_window_unclipped_counterexample :
    (readChunk_v1 (rangeOrigin [0, 1, 2, 3, 4]) 3 2 ⟨0, [], []⟩).2.fetchLog =
      [⟨2, 262145⟩] ∧
    ([0, 1, 2, 3, 4] : List Nat).length = 5 ∧
    5 - 1 < 262145 ∧
    (readChunk_v1 (rangeOrigin [0, 1, 2, 3, 4]) 3 2 ⟨0, [], []⟩).1 =
      .ok [2, 3, 4] := by
  refine ⟨?_, by decide, by decide, ?_⟩ <;> decide

/-- C8 (amended): every cache-miss fetch of the prefetch variant asks
for the window starting at `offset` of length exactly
`max size MIN_FETCH_SIZE` — hence at least `max(size, MIN_FETCH_SIZE)`
bytes — with no clipping of the requested window at the resolved total. -/
theorem readChunk_fetch_window_spec (origin : FetchReq → HttpResponse)
    (size offset : Nat) (st : ReadState) :
    (readChunk_v1 origin size offset st).2.fetchLog =
      st.fetchLog ++ [⟨offset, offset + max size MIN_FETCH_SIZE - 1⟩] ∧
    (offset + max size MIN_FETCH_SIZE - 1) + 1 - offset =
      max size MIN_FETCH_SIZE ∧
    size ≤ max size MIN_FETCH_SIZE := by
  refine ⟨rfl, ?_, le_max_left _ _⟩
  have h : 1 ≤ max size MIN_FETCH_SIZE :=
    le_max_of_le_right (by norm_num [MIN_FETCH_SIZE])
  omega

end MediaCore

namespace MediaCore

/-- Status of the compliant origin on an in-range request. -/
theorem rangeOrigin_status (file : List Nat) (r : FetchReq)
    (h : r.rangeStart < file.length) : (rangeOrigin file r).status = 206 := by
  unfold rangeOrigin
  rw [if_pos h]

/-- Body of the compliant origin on an in-range request. -/
theorem rangeOrigin_body (file : List Nat) (r : FetchReq)
    (h : r.rangeStart < file.length) :
    (rangeOrigin file r).body =
      (file.drop r.rangeStart).take (r.rangeEnd + 1 - r.rangeStart) := by
  unfold rangeOrigin
  rw [if_pos h]

/-- Success path of the prefetch reader: when the response is ok and not
a 200 at non-zero offset, the result is the body sliced to `size`. -/
theorem readChunk_v1_ok (origin : FetchReq → HttpResponse) (size offset : Nat)
    (st : ReadState)
    (hok : respOk (origin ⟨offset, offset + max size MIN_FETCH_SIZE - 1⟩))
    (hne : (origin ⟨offset, offset + max size MIN_FETCH_SIZE - 1⟩).status ≠ 200 ∨
      offset = 0) :
    (readChunk_v1 origin size offset st).1 =
      if (origin ⟨offset, offset + max size MIN_FETCH_SIZE - 1⟩).body.length > size
      then .ok ((origin ⟨offset, offset + max size MIN_FETCH_SIZE - 1⟩).body.take size)
      else .ok (origin ⟨offset, offset + max size MIN_FETCH_SIZE - 1⟩).body := by
  simp only [readChunk_v1]
  rw [if_neg (not_not_intro hok), if_neg ?_]
  rintro ⟨h200, hpos⟩
  rcases hne with h | h
  · exact h h200
  · omega

/-- Success path of the direct reader: when the response is ok and not a
200 at non-zero offset, the result is the body unsliced. -/
theorem readChunk_v2_ok (origin : FetchReq → HttpResponse) (size offset : Nat)
    (st : ReadState)
    (hok : respOk (origin ⟨offset, offset + size - 1⟩))
    (hne : (origin ⟨offset, offset + size - 1⟩).status ≠ 200 ∨ offset = 0) :
    (readChunk_v2 origin size offset st).1 =
      .ok (origin ⟨offset, offset + size - 1⟩).body := by
  simp only [readChunk_v2]
  rw [if_neg (not_not_intro hok), if_neg ?_]
  rintro ⟨h200, hpos⟩
  rcases hne with h | h
  · exact h h200
  · omega

/-- C1: against a range-compliant origin holding `file`, a successful
readChunk of either variant returns exactly `size` bytes when
`offset + size` lies within the resolved total `file.length`, exactly
`file.length - offset` bytes on a tail read, and never more than `size`
bytes. -/
theorem readChunk_result_length (file : List Nat) (size offset : Nat)
    (st : ReadState) (hsize : 0 < size) (hoff : offset < file.length) :
    (∃ b1, (readChunk_v1 (rangeOrigin file) size offset st).1 = .ok b1 ∧
      b1.length =
        (if offset + size ≤ file.length then size else file.length - offset) ∧
      b1.length ≤ size) ∧
    (∃ b2, (readChunk_v2 (rangeOrigin file) size offset st).1 = .ok b2 ∧
      b2.length =
        (if offset + size ≤ file.length then size else file.length - offset) ∧
      b2.length ≤ size) := by
  have hfs : size ≤ max size MIN_FETCH_SIZE := le_max_left _ _
  have hfs1 : 1 ≤ max size MIN_FETCH_SIZE := le_trans hsize hfs
  constructor
  · -- prefetch variant
    have hst : (rangeOrigin file ⟨offset, offset + max size MIN_FETCH_SIZE - 1⟩).status
        = 206 := rangeOrigin_status file _ hoff
    have hok : respOk (rangeOrigin file ⟨offset, offset + max size MIN_FETCH_SIZE - 1⟩) := by
      unfold respOk
      rw [hst]
      omega
    have hres := readChunk_v1_ok (rangeOrigin file) size offset st hok
      (.inl (by rw [hst]; omega))
    have hblen : (rangeOrigin file ⟨offset, offset + max size MIN_FETCH_SIZE - 1⟩).body.length
        = min (max size MIN_FETCH_SIZE) (file.length - offset) := by
      rw [rangeOrigin_body file _ hoff]
      dsimp only
      rw [List.length_take, List.length_drop]
      congr 1
      simp only [Nat.max_def] at hfs1 ⊢
      split_ifs at hfs1 ⊢ <;> omega
    by_cases hgt : (rangeOrigin file ⟨offset, offset + max size MIN_FETCH_SIZE - 1⟩).body.length > size
    · rw [if_pos hgt] at hres
      refine ⟨_, hres, ?_, ?_⟩
      · rw [List.length_take]
        rw [hblen] at hgt ⊢
        simp only [Nat.min_def, Nat.max_def] at hgt ⊢
        split_ifs at hgt ⊢ <;> omega
      · rw [List.length_take]
        simp only [Nat.min_def]
        split_ifs <;> omega
    · rw [if_neg hgt] at hres
      refine ⟨_, hres, ?_, ?_⟩
      · rw [hblen]
        rw [hblen] at hgt
        simp only [Nat.min_def, Nat.max_def] at hgt hfs ⊢
        split_ifs at hgt hfs ⊢ <;> omega
      · rw [hblen]
        simp only [Nat.min_def, Nat.max_def] at hfs ⊢
        split_ifs at hfs ⊢ <;> omega
  · -- direct variant
    have hst : (rangeOrigin file ⟨offset, offset + size - 1⟩).status = 206 :=
      rangeOrigin_status file _ hoff
    have hok : respOk (rangeOrigin file ⟨offset, offset + size - 1⟩) := by
      unfold respOk
      rw [hst]
      omega
    have hres := readChunk_v2_ok (rangeOrigin file) size offset st hok
      (.inl (by rw [hst]; omega))
    have hblen : (rangeOrigin file ⟨offset, offset + size - 1⟩).body.length
        = min size (file.length - offset) := by
      rw [rangeOrigin_body file _ hoff]
      dsimp only
      rw [List.length_take, List.length_drop]
      congr 1
      omega
    refine ⟨_, hres, ?_, ?_⟩
    · rw [hblen]
      simp only [Nat.min_def]
      split_ifs <;> omega
    · rw [hblen]
      simp only [Nat.min_def]
      split_ifs <;> omega

/-- Witness for C1: a tail read of 2 bytes at offset 4 of a 5-byte file
returns exactly 1 byte in both variants. -/
theorem readChunk_result_length_witness :
    (∃ b1, (readChunk_v1 (rangeOrigin [0, 1, 2, 3, 4]) 2 4 ⟨0, [], []⟩).1 = .ok b1 ∧
      b1.length =
        (if 4 + 2 ≤ ([0, 1, 2, 3, 4] : List Nat).length then 2
         else ([0, 1, 2, 3, 4] : List Nat).length - 4) ∧
      b1.length ≤ 2) ∧
    (∃ b2, (readChunk_v2 (rangeOrigin [0, 1, 2, 3, 4]) 2 4 ⟨0, [], []⟩).1 = .ok b2 ∧
      b2.length =
        (if 4 + 2 ≤ ([0, 1, 2, 3, 4] : List Nat).length then 2
         else ([0, 1, 2, 3, 4] : List Nat).length - 4) ∧
      b2.length ≤ 2) :=
  readChunk_result_length [0, 1, 2, 3, 4] 2 4 ⟨0, [], []⟩ (by decide) (by decide)

end MediaCore

namespace ProxyGateway

open MediaCore

/-- C5 counterexample: the worker copies headers by a blocklist, not by
the allow-list of the claim.  An upstream `x-powered-by` header — which
is on no allow-list — is forwarded verbatim to the client. -/
theorem proxy_forwards_unlisted_header :
    hget (respondHeaders ⟨206, "Partial Content",
        [("x-powered-by", "php"), ("etag", "abc")], [1, 2]⟩)
      "x-powered-by" = some "php" := by decide

/-- C5 (amended): the worker forwards every upstream header whose
lowercased name is outside its blocklist (content-encoding,
content-length, transfer-encoding, connection, keep-alive,
content-disposition, content-type) and outside the CORS set, restores
`Content-Length` and `Content-Range` from the upstream response, forces
the content type, and drops the remaining blocklisted names. -/
theorem respondHeaders_blocklist_spec :
    (∀ (ur : HttpResponse) (k : String),
      (ur.headers.map fun p => lowerStr p.1).Nodup →
      lowerStr k ∉ skipHeaders →
      lowerStr k ∉ corsHeaders.map (fun p => lowerStr p.1) →
      lowerStr k ≠ "content-range" →
      hget (respondHeaders ur) k = hget ur.headers k) ∧
    (∀ ur : HttpResponse,
      hget (respondHeaders ur) "Content-Length" = hget ur.headers "Content-Length" ∧
      hget (respondHeaders ur) "Content-Range" = hget ur.headers "Content-Range" ∧
      hget (respondHeaders ur) "Content-Type" = some "application/octet-stream" ∧
      hget (respondHeaders ur) "Transfer-Encoding" = none ∧
      hget (respondHeaders ur) "Connection" = none ∧
      hget (respondHeaders ur) "Keep-Alive" = none ∧
      hget (respondHeaders ur) "Content-Encoding" = none) := by
  constructor
  · intro ur k hnd hskip hcors hcr
    have hct : ¬ lowerStr k = lowerStr "content-type" := fun hh =>
      hskip (by rw [hh]; decide)
    have hcl : ¬ lowerStr k = lowerStr "Content-Length" := fun hh =>
      hskip (by rw [hh]; decide)
    have hcr2 : ¬ lowerStr k = lowerStr "Content-Range" := fun hh =>
      hcr (by rw [hh]; decide)
    have hcd : ¬ lowerStr k = lowerStr "content-disposition" := fun hh =>
      hskip (by rw [hh]; decide)
    rw [hget_respondHeaders_passthrough ur k hcors hct hcl hcr2 hcd,
      hget_copyHeaders_pass _ _ _ hskip hnd]
    cases h : hget ur.headers k <;> rfl
  · intro ur
    refine ⟨respondHeaders_contentLength ur, respondHeaders_contentRange ur,
      respondHeaders_contentType ur, ?_, ?_, ?_, ?_⟩ <;>
      exact respondHeaders_dropped ur _ (by decide) (by decide) (by decide)
        (by decide) (by decide) (by decide)

/-- Witness for the amended C5 theorem: the pass-through conjunct at the
counterexample response and the unlisted name `x-powered-by`. -/
theorem respondHeaders_blocklist_spec_witness :
    hget (respondHeaders ⟨206, "Partial Content",
        [("x-powered-by", "php"), ("etag", "abc")], [1, 2]⟩) "x-powered-by" =
      hget (⟨206, "Partial Content",
        [("x-powered-by", "php"), ("etag", "abc")], [1, 2]⟩ : HttpResponse).headers
        "x-powered-by" :=
  respondHeaders_blocklist_spec.1
    ⟨206, "Partial Content", [("x-powered-by", "php"), ("etag", "abc")], [1, 2]⟩
    "x-powered-by" (by decide) (by decide) (by decide) (by decide)

/-- C6: the worker never sends an inbound `Cookie` or `Origin` header
upstream, never emits `Content-Disposition` to its client on any path,
and the forwarded-response headers always carry the forced
`application/octet-stream` content type. -/
theorem proxy_sanitizes_headers :
    (∀ (env : ProxyEnv) (req : ProxyRequest),
      (∀ c ∈ (proxyFetch env req).2,
        hget c.headers "Cookie" = none ∧ hget c.headers "Origin" = none) ∧
      hget (proxyFetch env req).1.headers "Content-Disposition" = none) ∧
    (∀ ur : HttpResponse,
      hget (respondHeaders ur) "Content-Type" = some "application/octet-stream") := by
  constructor
  · intro env req
    rcases proxyFetch_cases env req with ⟨hcalls, hhdr⟩ |
      ⟨t, u, hparam, hparse, hcalls, hhdr⟩
    · constructor
      · intro c hc
        rw [hcalls] at hc
        simp at hc
      · rw [hhdr]
        decide
    · constructor
      · intro c hc
        rw [hcalls] at hc
        simp at hc
        subst hc
        exact ⟨upstreamHeaders_cookie _ _, upstreamHeaders_origin _ _⟩
      · rcases hhdr with hhdr | ⟨ur, hup, hhdr⟩
        · rw [hhdr]
          decide
        · rw [hhdr]
          exact respondHeaders_contentDisposition ur
  · exact respondHeaders_contentType

/-- C10: when the `url` query parameter is present and non-empty but
fails URL parsing, the worker answers 502 with a `Proxy error:` body and
the CORS headers — not 400 — and issues no upstream request. -/
theorem proxy_invalid_url_502 (env : ProxyEnv) (req : ProxyRequest) (t : String)
    (hm : req.method ≠ "OPTIONS") (hu : req.urlParam = some t) (ht : t ≠ "")
    (hp : env.parseUrl t = none) :
    (proxyFetch env req).1.status = 502 ∧
    (proxyFetch env req).1.headers = corsHeaders ∧
    (proxyFetch env req).1.body = .text ("Proxy error: " ++ env.parseErrMsg t) ∧
    (proxyFetch env req).2 = [] := by
  simp [proxyFetch, hm, hu, ht, hp]

/-- Witness for C10 at a concrete unparsable target URL. -/
theorem proxy_invalid_url_502_witness :
    (proxyFetch ⟨fun _ => none, fun s => "Invalid URL: " ++ s,
        fun _ => .error "no network"⟩ ⟨"GET", some "notaurl", []⟩).1.status = 502 ∧
    (proxyFetch ⟨fun _ => none, fun s => "Invalid URL: " ++ s,
        fun _ => .error "no network"⟩ ⟨"GET", some "notaurl", []⟩).1.headers =
      corsHeaders ∧
    (proxyFetch ⟨fun _ => none, fun s => "Invalid URL: " ++ s,
        fun _ => .error "no network"⟩ ⟨"GET", some "notaurl", []⟩).1.body =
      .text ("Proxy error: " ++ ("Invalid URL: " ++ "notaurl")) ∧
    (proxyFetch ⟨fun _ => none, fun s => "Invalid URL: " ++ s,
        fun _ => .error "no network"⟩ ⟨"GET", some "notaurl", []⟩).2 = [] :=
  proxy_invalid_url_502 ⟨fun _ => none, fun s => "Invalid URL: " ++ s,
      fun _ => .error "no network"⟩ ⟨"GET", some "notaurl", []⟩ "notaurl"
    (by decide) rfl (by decide) rfl

end ProxyGateway
